import Mathlib

/-!
Verification of the instagrader essay ingestion and asynchronous
text-extraction pipeline.

This file shallowly embeds the relevant parts of the source:

* `project/assignments/views.py` — `_is_valid_zip_entry`,
  `AssignmentUploadView.post`, `AssignmentUploadView._handle_zip`;
* `backend/assignments/tasks.py` — `extract_essay_text`, `grade_essay`,
  `process_essay_batch`;
* `project/assignments/models.py` — the `Essay` model and its status enum.

The Django ORM is modelled as an explicit `Store` (a list of essay rows
plus an id counter) threaded through the functions.  The external ZIP
parser (`zipfile.ZipFile` + `namelist` + `read`) and the external
document converter (`MarkItDown.convert`) are collaborators outside the
repository, so they are passed in as function parameters: `parseZip`
returns `none` when the byte stream cannot be parsed as a ZIP container
(the constructor raises), and `convert` returns `none` when conversion
raises.  Python exceptions are modelled with `Except`, with the store
threaded separately so that state persisted before a raise survives it,
exactly as database writes do.
-/

namespace Instagrader

/-! ### String helpers (os.path semantics used by the source) -/

/-- Characters after the last `/` of the list; `os.path.basename` on a
POSIX path, which keeps everything after the final separator. -/
def basenameChars (l : List Char) : List Char :=
  l.foldl (fun acc c => if c = '/' then [] else acc ++ [c]) []

/-- `os.path.basename` for strings. -/
def basename (s : String) : String :=
  ⟨basenameChars s.toList⟩

/-- The suffix starting at the last `.` of the list, or `[]` if there is
no dot.  Helper for `extOf`. -/
def lastDotSuffix : List Char → List Char
  | [] => []
  | c :: cs =>
    let r := lastDotSuffix cs
    if r.isEmpty then (if c = '.' then c :: cs else []) else r

/-- `os.path.splitext(p)[1]`: the extension of the path.  CPython takes
the last `.` that lies after the last `/`, and only if some character of
the base name before that dot is not itself a dot (so `.DS_Store` and
`...` have no extension).  Dropping the leading dots of the base name
and then taking the suffix from the last remaining dot implements
exactly that rule. -/
def extOf (p : String) : String :=
  ⟨lastDotSuffix ((basenameChars p.toList).dropWhile (fun c => c = '.'))⟩

/-- ASCII lowering of a string; `str.lower()` for the ASCII file
extensions the source compares. -/
def lowerStr (s : String) : String :=
  ⟨s.toList.map Char.toLower⟩

/-- Whether the first character of the string is `.`;
`basename.startswith(".")` in the source. -/
def startsWithDot (s : String) : Bool :=
  match s.toList with
  | [] => false
  | c :: _ => c = '.'

/-- Whether `pat` occurs at the head of `l`. -/
def leadsList : List Char → List Char → Bool
  | [], _ => true
  | _ :: _, [] => false
  | p :: ps, c :: cs => p == c && leadsList ps cs

/-- Whether `pat` occurs contiguously anywhere in the second list;
Python's `pat in name` substring test. -/
def hasSubstr (pat : List Char) : List Char → Bool
  | [] => leadsList pat []
  | c :: cs => leadsList pat (c :: cs) || hasSubstr pat cs

/-! ### Data model (`project/assignments/models.py`) -/

/-- `Essay.Status` text choices. -/
inductive EssayStatus
  | pending
  | processing
  | graded
  | reviewed
  | failed
deriving DecidableEq, Repr

/-- One `Essay` row.  `id` is the primary key (an opaque UUID in the
source, a `Nat` drawn from a counter here), `original_file` the stored
binary content as bytes. -/
structure Essay where
  id : Nat
  assignment : Nat
  file_name : String
  original_file : List Nat
  extracted_text : String
  status : EssayStatus
deriving DecidableEq, Repr

/-- The essay table: rows plus the id generator. -/
structure Store where
  essays : List Essay
  nextId : Nat
deriving DecidableEq, Repr

/-- `Essay.objects.create(...)`: inserts a fresh row with
`extracted_text` blank and the given status defaulting behaviour of the
call sites (both call sites pass `status=Essay.Status.PENDING`). -/
def Store.createEssay (st : Store) (aid : Nat) (fname : String)
    (content : List Nat) : Essay × Store :=
  let e : Essay :=
    { id := st.nextId, assignment := aid, file_name := fname
      original_file := content, extracted_text := "", status := .pending }
  (e, { essays := st.essays ++ [e], nextId := st.nextId + 1 })

/-- `Essay.objects.get(id=...)`: `none` models the `DoesNotExist`
exception. -/
def Store.getEssay (st : Store) (i : Nat) : Option Essay :=
  st.essays.find? (fun e => e.id == i)

/-- `essay.save(...)`: writes the row with this id back.  At every call
site the saved object was freshly fetched from the store and mutated in
one or two fields, so replacing the whole row is equivalent to the
source's `update_fields` saves. -/
def Store.saveEssay (st : Store) (e : Essay) : Store :=
  { essays := st.essays.map (fun x => if x.id == e.id then e else x)
    nextId := st.nextId }

/-! ### Upload classification (`project/assignments/views.py`) -/

/-- `ALLOWED_EXTENSIONS = {".pdf", ".docx", ".txt"}`. -/
def ALLOWED_EXTENSIONS : List String := [".pdf", ".docx", ".txt"]

/-- The `"__MACOSX"` marker filtered from ZIP entry paths. -/
def macosxMarker : List Char := "__MACOSX".toList

/-- `_is_valid_zip_entry`: drop directory markers (empty base name),
hidden files (base name starting with a dot), macOS resource-fork paths
(`"__MACOSX" in name`), and entries whose extension is not in the
allow-list (compared lowercased). -/
def is_valid_zip_entry (name : String) : Bool :=
  let b := basename name
  if b = "" then false
  else if startsWithDot b then false
  else if hasSubstr macosxMarker name.toList then false
  else ALLOWED_EXTENSIONS.contains (lowerStr (extOf b))

/-- One uploaded item of `request.FILES.getlist("files")`: a claimed
filename and the byte content (`size` is the content length). -/
structure UploadedFile where
  name : String
  content : List Nat
deriving DecidableEq, Repr

/-- The `{"detail": ...}` rejection bodies of `AssignmentUploadView.post`,
one constructor per distinct message.  `unsupportedType` carries the
lowercased extension interpolated into the message. -/
inductive UploadError
  | noFiles
  | corruptZip
  | zipNoValidFiles
  | emptyFile
  | unsupportedType (ext : String)
deriving DecidableEq, Repr

/-- Result of one upload request: the HTTP response (`ok` = 201 with the
created essays, `error` = 400 with a detail message), the store after
the call, and the single `process_essay_batch.delay(essay_ids)` enqueue
if one happened. -/
structure UploadOutcome where
  response : Except UploadError (List Essay)
  store : Store
  dispatched : Option (List Nat)
deriving Repr

/-- The loop body of `_handle_zip`: for each entry of `zf.namelist()` in
order, skip invalid entries, otherwise create one essay whose
`file_name` is the entry's base name and whose content is the entry's
bytes.  Returns the created essays in order together with the store. -/
def zipEntriesLoop (aid : Nat) : Store → List (String × List Nat) → List Essay × Store
  | st, [] => ([], st)
  | st, (n, c) :: rest =>
    if is_valid_zip_entry n then
      let p := st.createEssay aid (basename n) c
      let q := zipEntriesLoop aid p.2 rest
      (p.1 :: q.1, q.2)
    else zipEntriesLoop aid st rest

/-- `AssignmentUploadView._handle_zip`: parse the bytes as a ZIP
(`none` = the `zipfile.ZipFile` constructor raised, i.e. corrupt), then
create one essay per valid entry. -/
def handle_zip (parseZip : List Nat → Option (List (String × List Nat)))
    (st : Store) (aid : Nat) (f : UploadedFile) : Option (List Essay × Store) :=
  match parseZip f.content with
  | none => none
  | some entries => some (zipEntriesLoop aid st entries)

/-- The `for uploaded_file in files` loop of `AssignmentUploadView.post`,
with the accumulated `created_essays` list.  When the loop finishes, the
ids of all created essays are handed to `process_essay_batch.delay` and
the request returns 201 with the created essays.  Each rejection returns
immediately with the store as mutated so far and nothing dispatched. -/
def uploadLoop (parseZip : List Nat → Option (List (String × List Nat))) (aid : Nat) :
    Store → List Essay → List UploadedFile → UploadOutcome
  | st, created, [] =>
    { response := .ok created, store := st
      dispatched := some (created.map (·.id)) }
  | st, created, f :: rest =>
    if lowerStr (extOf f.name) = ".zip" then
      match handle_zip parseZip st aid f with
      | none =>
        { response := .error .corruptZip, store := st, dispatched := none }
      | some p =>
        if p.1.isEmpty then
          { response := .error .zipNoValidFiles, store := p.2, dispatched := none }
        else uploadLoop parseZip aid p.2 (created ++ p.1) rest
    else if ALLOWED_EXTENSIONS.contains (lowerStr (extOf f.name)) then
      if f.content.length = 0 then
        { response := .error .emptyFile, store := st, dispatched := none }
      else
        uploadLoop parseZip aid (st.createEssay aid f.name f.content).2
          (created ++ [(st.createEssay aid f.name f.content).1]) rest
    else
      { response := .error (.unsupportedType (lowerStr (extOf f.name))), store := st
        dispatched := none }

/-- `AssignmentUploadView.post` after the assignment has been resolved
(the 404 path for a missing or foreign assignment happens before any of
the modelled behaviour and is not part of any claim). -/
def upload_post (parseZip : List Nat → Option (List (String × List Nat)))
    (st : Store) (aid : Nat) (files : List UploadedFile) : UploadOutcome :=
  if files.isEmpty then
    { response := .error .noFiles, store := st, dispatched := none }
  else uploadLoop parseZip aid st [] files

/-! ### Asynchronous tasks (`backend/assignments/tasks.py`) -/

/-- The exceptions `extract_essay_text` can raise: `Essay.DoesNotExist`
from the lookup, or the re-raised conversion error. -/
inductive ExtractErr
  | notFound
  | conversionFailed
deriving DecidableEq, Repr

/-- `extract_essay_text`: fetch the essay (raising if absent), persist
`status = PROCESSING`, then convert the stored file; on success persist
`extracted_text` and return the id, on a conversion error persist
`status = FAILED` and re-raise.  The store is returned alongside the
outcome because writes persisted before a raise survive it. -/
def extract_essay_text (convert : List Nat → Option String) (essay_id : Nat)
    (st : Store) : Except ExtractErr Nat × Store :=
  match st.getEssay essay_id with
  | none => (.error .notFound, st)
  | some essay =>
    let e1 := { essay with status := .processing }
    let st1 := st.saveEssay e1
    match convert e1.original_file with
    | some text =>
      let e2 := { e1 with extracted_text := text }
      (.ok e2.id, st1.saveEssay e2)
    | none =>
      (.error .conversionFailed, st1.saveEssay { e1 with status := .failed })

/-- `grade_essay`: a logging stub, not yet implemented; it cannot
fail. -/
def grade_essay (_essay_id : Nat) : Unit := ()

/-- What happened to one id of a batch: extraction failed (the failure
was logged and grading skipped), or extraction succeeded and
`grade_essay` was invoked for it. -/
inductive BatchEntry
  | extractionFailed (id : Nat) (e : ExtractErr)
  | graded (id : Nat)
deriving DecidableEq, Repr

/-- The essay id an entry is about. -/
def BatchEntry.essayId : BatchEntry → Nat
  | .extractionFailed i _ => i
  | .graded i => i

/-- `process_essay_batch`: iterate the ids in order; run
`extract_essay_text` under a catch-all handler (log and continue on any
exception, skipping grading for that id), then run `grade_essay` under
its own catch-all.  Returns the final store and the per-id log. -/
def process_essay_batch (convert : List Nat → Option String) :
    Store → List Nat → Store × List BatchEntry
  | st, [] => (st, [])
  | st, i :: rest =>
    match extract_essay_text convert i st with
    | (.error e, st') =>
      let r := process_essay_batch convert st' rest
      (r.1, .extractionFailed i e :: r.2)
    | (.ok _, st') =>
      let _u := grade_essay i
      let r := process_essay_batch convert st' rest
      (r.1, .graded i :: r.2)

/-! ### Helper lemmas -/

/-- Field view of the essays created by the ZIP entry loop: one essay
per entry surviving the filter, in entry order, carrying the entry's
base name, its bytes, and status PENDING. -/
theorem zipEntriesLoop_spec (aid : Nat) (entries : List (String × List Nat)) :
    ∀ st : Store,
      ((zipEntriesLoop aid st entries).1.map fun e =>
          (e.file_name, e.original_file, e.status)) =
        ((entries.filter fun p => is_valid_zip_entry p.1).map fun p =>
          (basename p.1, p.2, EssayStatus.pending)) := by
  induction entries with
  | nil => intro st; rfl
  | cons p rest ih =>
    intro st
    obtain ⟨n, c⟩ := p
    cases h : is_valid_zip_entry n with
    | true => simp [zipEntriesLoop, h, Store.createEssay, List.filter_cons, ih]
    | false => simp [zipEntriesLoop, h, List.filter_cons, ih]

/-- The ZIP entry loop only appends: the resulting store's rows are the
incoming rows followed by exactly the created essays. -/
theorem zipEntriesLoop_store (aid : Nat) (entries : List (String × List Nat)) :
    ∀ st : Store,
      (zipEntriesLoop aid st entries).2.essays =
        st.essays ++ (zipEntriesLoop aid st entries).1 := by
  induction entries with
  | nil => intro st; simp [zipEntriesLoop]
  | cons p rest ih =>
    intro st
    obtain ⟨n, c⟩ := p
    cases h : is_valid_zip_entry n with
    | true => simp [zipEntriesLoop, h, Store.createEssay, ih]
    | false => simp [zipEntriesLoop, h, ih]

/-- Count of essays created by the ZIP entry loop. -/
theorem zipEntriesLoop_length (aid : Nat) (st : Store)
    (entries : List (String × List Nat)) :
    (zipEntriesLoop aid st entries).1.length =
      (entries.filter fun p => is_valid_zip_entry p.1).length := by
  have h := zipEntriesLoop_spec aid entries st
  have := congrArg List.length h
  simpa using this

/-- Every essay created by the ZIP entry loop starts PENDING. -/
theorem zipEntriesLoop_status (aid : Nat) (st : Store)
    (entries : List (String × List Nat)) :
    ∀ e ∈ (zipEntriesLoop aid st entries).1, e.status = EssayStatus.pending := by
  intro e he
  have h := zipEntriesLoop_spec aid entries st
  have hm : (e.file_name, e.original_file, e.status) ∈
      ((entries.filter fun p => is_valid_zip_entry p.1).map fun p =>
        (basename p.1, p.2, EssayStatus.pending)) := by
    rw [← h]
    exact List.mem_map_of_mem _ he
  obtain ⟨p, _, hp⟩ := List.mem_map.mp hm
  have := congrArg (fun t => t.2.2) hp
  simpa using this.symm

/-- A fetched row carries the id it was fetched by. -/
theorem getEssay_id (st : Store) (i : Nat) (a : Essay)
    (h : st.getEssay i = some a) : a.id = i := by
  have h' : st.essays.find? (fun e => e.id == i) = some a := h
  have := List.find?_some h'
  simpa using this

/-- Replacing in a list in which some element passes the find test makes
that test find the replacement. -/
theorem find?_map_replace (e : Essay) :
    ∀ l : List Essay, (l.find? fun y => y.id == e.id).isSome = true →
      ((l.map fun x => if x.id == e.id then e else x).find?
        fun y => y.id == e.id) = some e := by
  intro l
  induction l with
  | nil => intro h; simp [List.find?] at h
  | cons x xs ih =>
    intro h
    by_cases hx : (x.id == e.id) = true
    · rw [List.map_cons, if_pos hx]
      exact List.find?_cons_of_pos _ (by simp)
    · rw [@List.find?_cons_of_neg Essay (fun y => y.id == e.id) x xs hx] at h
      rw [List.map_cons, if_neg hx,
        @List.find?_cons_of_neg Essay (fun y => y.id == e.id) x
          (xs.map fun x => if x.id == e.id then e else x) hx]
      exact ih h

/-- Saving a row whose id is present makes a subsequent fetch by that id
return exactly the saved row. -/
theorem getEssay_saveEssay (st : Store) (i : Nat) (a e : Essay)
    (ha : st.getEssay i = some a) (he : e.id = i) :
    (st.saveEssay e).getEssay i = some e := by
  subst he
  have h' : (st.essays.find? fun y => y.id == e.id).isSome = true := by
    have : st.essays.find? (fun y => y.id == e.id) = some a := ha
    simp [this]
  exact find?_map_replace e st.essays h'

/-- The batch orchestrator distributes over list append: the ids of the
second part are processed starting from the store left by the first
part, and the logs concatenate. -/
theorem process_essay_batch_append (c : List Nat → Option String)
    (xs ys : List Nat) :
    ∀ st : Store,
      process_essay_batch c st (xs ++ ys) =
        ((process_essay_batch c (process_essay_batch c st xs).1 ys).1,
          (process_essay_batch c st xs).2 ++
            (process_essay_batch c (process_essay_batch c st xs).1 ys).2) := by
  induction xs with
  | nil => intro st; simp [process_essay_batch]
  | cons i rest ih =>
    intro st
    simp only [List.cons_append, process_essay_batch]
    cases hx : extract_essay_text c i st with
    | mk r st' =>
      cases r with
      | error e => simp [ih]
      | ok v => simp [ih]

/-- The batch log covers exactly the ids handed in, in order. -/
theorem process_essay_batch_ids (c : List Nat → Option String)
    (ids : List Nat) :
    ∀ st : Store,
      (process_essay_batch c st ids).2.map BatchEntry.essayId = ids := by
  induction ids with
  | nil => intro st; simp [process_essay_batch]
  | cons i rest ih =>
    intro st
    simp only [process_essay_batch]
    cases hx : extract_essay_text c i st with
    | mk r st' =>
      cases r with
      | error e => simp [BatchEntry.essayId, ih]
      | ok v => simp [BatchEntry.essayId, ih]

/-- If the upload loop answers 201, the full ordered id list of the
created essays (including those accumulated before the call) is
dispatched as the single batch, and every created essay is PENDING. -/
theorem uploadLoop_ok (parseZip : List Nat → Option (List (String × List Nat)))
    (aid : Nat) (files : List UploadedFile) :
    ∀ (st : Store) (created : List Essay),
      (∀ e ∈ created, e.status = EssayStatus.pending) →
      ∀ essays : List Essay,
        (uploadLoop parseZip aid st created files).response = .ok essays →
        (uploadLoop parseZip aid st created files).dispatched =
            some (essays.map (·.id)) ∧
          ∀ e ∈ essays, e.status = EssayStatus.pending := by
  induction files with
  | nil =>
    intro st created hc essays h
    simp only [uploadLoop, Except.ok.injEq] at h
    subst h
    exact ⟨rfl, hc⟩
  | cons f rest ih =>
    intro st created hc essays h
    by_cases hz : lowerStr (extOf f.name) = ".zip"
    · cases hp : parseZip f.content with
      | none => simp [uploadLoop, handle_zip, hz, hp] at h
      | some entries =>
        cases hemp : (zipEntriesLoop aid st entries).1.isEmpty with
        | true => simp [uploadLoop, handle_zip, hz, hp, hemp] at h
        | false =>
          have hstep :
              uploadLoop parseZip aid st created (f :: rest) =
                uploadLoop parseZip aid (zipEntriesLoop aid st entries).2
                  (created ++ (zipEntriesLoop aid st entries).1) rest := by
            simp [uploadLoop, handle_zip, hz, hp, hemp]
          rw [hstep] at h ⊢
          refine ih _ _ ?_ _ h
          intro e he
          rcases List.mem_append.mp he with h1 | h2
          · exact hc e h1
          · exact zipEntriesLoop_status aid st entries e h2
    · by_cases ha : lowerStr (extOf f.name) ∈ ALLOWED_EXTENSIONS
      · by_cases hlen : f.content = []
        · simp [uploadLoop, hz, ha, hlen] at h
        · have hstep :
              uploadLoop parseZip aid st created (f :: rest) =
                uploadLoop parseZip aid (st.createEssay aid f.name f.content).2
                  (created ++ [(st.createEssay aid f.name f.content).1]) rest := by
            simp [uploadLoop, hz, ha, hlen]
          rw [hstep] at h ⊢
          refine ih _ _ ?_ _ h
          intro e he
          rcases List.mem_append.mp he with h1 | h2
          · exact hc e h1
          · simp only [List.mem_singleton] at h2
            subst h2
            rfl
      · simp [uploadLoop, hz, ha] at h

/-- If the upload loop answers with a rejection, nothing is dispatched
and the store still begins with every row it began with (new rows may
have been appended by items processed before the rejection). -/
theorem uploadLoop_error (parseZip : List Nat → Option (List (String × List Nat)))
    (aid : Nat) (files : List UploadedFile) :
    ∀ (st : Store) (created : List Essay) (err : UploadError),
      (uploadLoop parseZip aid st created files).response = .error err →
      (uploadLoop parseZip aid st created files).dispatched = none ∧
        ∃ newRows, (uploadLoop parseZip aid st created files).store.essays =
          st.essays ++ newRows := by
  induction files with
  | nil => intro st created err h; simp [uploadLoop] at h
  | cons f rest ih =>
    intro st created err h
    by_cases hz : lowerStr (extOf f.name) = ".zip"
    · cases hp : parseZip f.content with
      | none =>
        refine ⟨by simp [uploadLoop, handle_zip, hz, hp], ⟨[], ?_⟩⟩
        simp [uploadLoop, handle_zip, hz, hp]
      | some entries =>
        cases hemp : (zipEntriesLoop aid st entries).1.isEmpty with
        | true =>
          refine ⟨by simp [uploadLoop, handle_zip, hz, hp, hemp],
            ⟨(zipEntriesLoop aid st entries).1, ?_⟩⟩
          have hst := zipEntriesLoop_store aid entries st
          simp [uploadLoop, handle_zip, hz, hp, hemp, hst]
        | false =>
          have hstep :
              uploadLoop parseZip aid st created (f :: rest) =
                uploadLoop parseZip aid (zipEntriesLoop aid st entries).2
                  (created ++ (zipEntriesLoop aid st entries).1) rest := by
            simp [uploadLoop, handle_zip, hz, hp, hemp]
          rw [hstep] at h ⊢
          obtain ⟨hd, new, hs⟩ := ih _ _ _ h
          refine ⟨hd, ⟨(zipEntriesLoop aid st entries).1 ++ new, ?_⟩⟩
          rw [hs, zipEntriesLoop_store aid entries st, List.append_assoc]
    · by_cases ha : lowerStr (extOf f.name) ∈ ALLOWED_EXTENSIONS
      · by_cases hlen : f.content = []
        · refine ⟨by simp [uploadLoop, hz, ha, hlen], ⟨[], ?_⟩⟩
          simp [uploadLoop, hz, ha, hlen]
        · have hstep :
              uploadLoop parseZip aid st created (f :: rest) =
                uploadLoop parseZip aid (st.createEssay aid f.name f.content).2
                  (created ++ [(st.createEssay aid f.name f.content).1]) rest := by
            simp [uploadLoop, hz, ha, hlen]
          rw [hstep] at h ⊢
          obtain ⟨hd, new, hs⟩ := ih _ _ _ h
          refine ⟨hd, ⟨(st.createEssay aid f.name f.content).1 :: new, ?_⟩⟩
          rw [hs]
          simp [Store.createEssay]
      · refine ⟨by simp [uploadLoop, hz, ha], ⟨[], ?_⟩⟩
        simp [uploadLoop, hz, ha]

/-- When no entry survives the filter, the ZIP entry loop creates
nothing and leaves the store untouched. -/
theorem zipEntriesLoop_nil_of_filter_nil (aid : Nat)
    (entries : List (String × List Nat)) :
    ∀ st : Store, (entries.filter fun p => is_valid_zip_entry p.1) = [] →
      zipEntriesLoop aid st entries = ([], st) := by
  induction entries with
  | nil => intro st _; rfl
  | cons p rest ih =>
    intro st hfil
    obtain ⟨n, c⟩ := p
    cases h : is_valid_zip_entry n with
    | true => simp [List.filter_cons, h] at hfil
    | false =>
      simp only [List.filter_cons, h] at hfil
      simp [zipEntriesLoop, h, ih st hfil]

/-- A concrete store with one pending essay, used by witnesses. -/
def sampleStore : Store :=
  { essays := [{ id := 5, assignment := 0, file_name := "a.txt"
                 original_file := [1, 2], extracted_text := ""
                 status := .pending }]
    nextId := 6 }

/-- A concrete store whose only essay is already FAILED, used to witness
the absence of a status guard in the extraction worker. -/
def failedStore : Store :=
  { essays := [{ id := 5, assignment := 0, file_name := "a.txt"
                 original_file := [1, 2], extracted_text := ""
                 status := .failed }]
    nextId := 6 }

/-! ### Claim theorems -/

/-- C3 — Extraction worker success path: for every essay id that
resolves to an essay, `extract_essay_text` persists status PROCESSING
before invoking the conversion (the final store is two saves applied in
that order, and the intermediate store already shows PROCESSING with the
old `extracted_text`); on success it persists `extracted_text` from the
conversion result and leaves status at PROCESSING, so `extracted_text`
becomes non-empty only after the PROCESSING transition is persisted. -/
theorem extraction_success_path (convert : List Nat → Option String)
    (st : Store) (essay_id : Nat) (essay : Essay) (text : String)
    (hget : st.getEssay essay_id = some essay)
    (hconv : convert essay.original_file = some text) :
    extract_essay_text convert essay_id st =
      (.ok essay.id,
        (st.saveEssay { essay with status := .processing }).saveEssay
          { essay with status := .processing, extracted_text := text }) ∧
    (st.saveEssay { essay with status := .processing }).getEssay essay_id =
      some { essay with status := .processing } ∧
    (extract_essay_text convert essay_id st).2.getEssay essay_id =
      some { essay with status := .processing, extracted_text := text } := by
  have hid := getEssay_id st essay_id essay hget
  have heq : extract_essay_text convert essay_id st =
      (.ok essay.id,
        (st.saveEssay { essay with status := .processing }).saveEssay
          { essay with status := .processing, extracted_text := text }) := by
    simp [extract_essay_text, hget, hconv]
  have hmid : (st.saveEssay { essay with status := .processing }).getEssay essay_id =
      some { essay with status := .processing } :=
    getEssay_saveEssay st essay_id essay _ hget hid
  refine ⟨heq, hmid, ?_⟩
  rw [heq]
  exact getEssay_saveEssay _ essay_id _ _ hmid hid

/-- Witness for C3 at a concrete store and converter. -/
theorem extraction_success_path_witness :
    (extract_essay_text (fun _ => some "hello") 5 sampleStore).2.getEssay 5 =
      some { id := 5, assignment := 0, file_name := "a.txt"
             original_file := [1, 2], extracted_text := "hello"
             status := .processing } :=
  (extraction_success_path (fun _ => some "hello") sampleStore 5
    { id := 5, assignment := 0, file_name := "a.txt", original_file := [1, 2]
      extracted_text := "", status := .pending } "hello" rfl rfl).2.2

/-- C4 — Extraction worker failure path: when conversion fails,
`extract_essay_text` persists status FAILED, leaves `extracted_text` at
its prior value (the saved row differs from the fetched row only in
status), and re-raises the error to its caller. -/
theorem extraction_failure_path (convert : List Nat → Option String)
    (st : Store) (essay_id : Nat) (essay : Essay)
    (hget : st.getEssay essay_id = some essay)
    (hconv : convert essay.original_file = none) :
    extract_essay_text convert essay_id st =
      (.error .conversionFailed,
        (st.saveEssay { essay with status := .processing }).saveEssay
          { essay with status := .failed }) ∧
    (extract_essay_text convert essay_id st).2.getEssay essay_id =
      some { essay with status := .failed } := by
  have hid := getEssay_id st essay_id essay hget
  have heq : extract_essay_text convert essay_id st =
      (.error .conversionFailed,
        (st.saveEssay { essay with status := .processing }).saveEssay
          { essay with status := .failed }) := by
    simp [extract_essay_text, hget, hconv]
  refine ⟨heq, ?_⟩
  rw [heq]
  have hmid : (st.saveEssay { essay with status := .processing }).getEssay essay_id =
      some { essay with status := .processing } :=
    getEssay_saveEssay st essay_id essay _ hget hid
  exact getEssay_saveEssay _ essay_id _ _ hmid hid

/-- Witness for C4 at a concrete store and a failing converter. -/
theorem extraction_failure_path_witness :
    (extract_essay_text (fun _ => none) 5 sampleStore).2.getEssay 5 =
      some { id := 5, assignment := 0, file_name := "a.txt"
             original_file := [1, 2], extracted_text := ""
             status := .failed } :=
  (extraction_failure_path (fun _ => none) sampleStore 5
    { id := 5, assignment := 0, file_name := "a.txt", original_file := [1, 2]
      extracted_text := "", status := .pending } rfl rfl).2

/-- C10 — The extraction worker has no status precondition: for every
essay id resolving to a row, whatever that row's current status
(FAILED and GRADED included), the worker persists PROCESSING and then
proceeds with conversion; no guard inspects the prior status. -/
theorem extraction_no_status_guard (convert : List Nat → Option String)
    (st : Store) (essay_id : Nat) (essay : Essay)
    (hget : st.getEssay essay_id = some essay) :
    (st.saveEssay { essay with status := .processing }).getEssay essay_id =
      some { essay with status := .processing } ∧
    extract_essay_text convert essay_id st =
      (match convert essay.original_file with
       | some text =>
         (.ok essay.id,
           (st.saveEssay { essay with status := .processing }).saveEssay
             { essay with status := .processing, extracted_text := text })
       | none =>
         (.error .conversionFailed,
           (st.saveEssay { essay with status := .processing }).saveEssay
             { essay with status := .failed })) := by
  have hid := getEssay_id st essay_id essay hget
  refine ⟨getEssay_saveEssay st essay_id essay _ hget hid, ?_⟩
  cases hconv : convert essay.original_file with
  | some text => simp [extract_essay_text, hget, hconv]
  | none => simp [extract_essay_text, hget, hconv]

/-- Witness for C10 at a store whose essay is already FAILED: the worker
still transitions it to PROCESSING. -/
theorem extraction_no_status_guard_witness :
    (failedStore.saveEssay
        { id := 5, assignment := 0, file_name := "a.txt"
          original_file := [1, 2], extracted_text := ""
          status := .processing }).getEssay 5 =
      some { id := 5, assignment := 0, file_name := "a.txt"
             original_file := [1, 2], extracted_text := ""
             status := .processing } :=
  (extraction_no_status_guard (fun _ => some "t") failedStore 5
    { id := 5, assignment := 0, file_name := "a.txt", original_file := [1, 2]
      extracted_text := "", status := .failed } rfl).1

/-- C2 — Batch failure isolation: `process_essay_batch` attempts every
id in order and never raises (its log covers exactly the input ids in
order, whatever the outcomes), and the entry at each position is
`graded` exactly when extraction at the store reached by the preceding
ids succeeds, `extractionFailed` (logged, grading skipped) otherwise —
so one id's failure, including a nonexistent id, never prevents any
other id from being attempted, and grading runs only after a successful
extraction. -/
theorem batch_failure_isolation (convert : List Nat → Option String)
    (st : Store) (ids : List Nat) :
    (process_essay_batch convert st ids).2.map BatchEntry.essayId = ids ∧
    ∀ pre i post, ids = pre ++ i :: post →
      (process_essay_batch convert st ids).2[pre.length]? =
        some (match (extract_essay_text convert i
            (process_essay_batch convert st pre).1).1 with
          | .ok _ => BatchEntry.graded i
          | .error e => BatchEntry.extractionFailed i e) := by
  refine ⟨process_essay_batch_ids convert ids st, ?_⟩
  intro pre i post hsplit
  subst hsplit
  rw [process_essay_batch_append]
  have hlen : (process_essay_batch convert st pre).2.length = pre.length := by
    have hmap := process_essay_batch_ids convert pre st
    calc (process_essay_batch convert st pre).2.length
        = ((process_essay_batch convert st pre).2.map BatchEntry.essayId).length := by
          simp
      _ = pre.length := by rw [hmap]
  dsimp only
  rw [List.getElem?_append_right (le_of_eq hlen), hlen, Nat.sub_self]
  cases hx : extract_essay_text convert i (process_essay_batch convert st pre).1 with
  | mk r st2 =>
    cases r with
    | ok v => simp [process_essay_batch, hx]
    | error e => simp [process_essay_batch, hx]

/-- Witness for C2: a batch pairing a nonexistent id with a valid one
still grades the valid one, at position 1 of the log. -/
theorem batch_failure_isolation_witness :
    (process_essay_batch (fun _ => some "t") sampleStore [999, 5]).2[1]? =
      some (BatchEntry.graded 5) :=
  (batch_failure_isolation (fun _ => some "t") sampleStore [999, 5]).2
    [999] 5 [] rfl

/-- C5 — ZIP entry eligibility: an entry is kept iff its base name is
non-empty, does not start with a dot, the path does not contain the
`__MACOSX` marker, and its lowercased extension is on the allow-list;
each surviving entry yields exactly one essay whose `file_name` is the
entry's base name; and a ZIP with one `.pdf`, one `.txt` and one `.jpg`
entry yields exactly 2 essays, the `.jpg` being dropped silently. -/
theorem zip_entry_eligibility :
    (∀ name : String,
      is_valid_zip_entry name = true ↔
        ¬(basename name = "" ∨ startsWithDot (basename name) = true ∨
          hasSubstr macosxMarker name.toList = true ∨
          lowerStr (extOf (basename name)) ∉ ALLOWED_EXTENSIONS)) ∧
    (∀ (aid : Nat) (st : Store) (entries : List (String × List Nat)),
      ((zipEntriesLoop aid st entries).1.map fun e => e.file_name) =
        ((entries.filter fun p => is_valid_zip_entry p.1).map fun p =>
          basename p.1)) ∧
    (zipEntriesLoop 0 { essays := [], nextId := 0 }
        [("a.pdf", [1]), ("b.txt", [2]), ("c.jpg", [3])]).1.length = 2 := by
  refine ⟨?_, ?_, by decide⟩
  · intro name
    simp only [is_valid_zip_entry]
    by_cases h1 : basename name = ""
    · simp [h1]
    · by_cases h2 : startsWithDot (basename name) = true
      · simp [h1, h2]
      · by_cases h3 : hasSubstr macosxMarker name.toList = true
        · simp [h1, h2, h3]
        · by_cases h4 : lowerStr (extOf (basename name)) ∈ ALLOWED_EXTENSIONS
          · simp [h1, h2, h3, h4]
          · simp [h1, h2, h3, h4]
  · intro aid st entries
    have h := zipEntriesLoop_spec aid entries st
    have h2 := congrArg (List.map fun t : String × List Nat × EssayStatus => t.1) h
    simpa [List.map_map, Function.comp] using h2

/-- C9 — No size check on archive entries: the entry loop creates one
PENDING essay per surviving entry carrying the entry's bytes verbatim,
with no zero-byte rejection — a ZIP whose only entry is an empty
`z.pdf` is accepted with one empty essay, while the same empty `z.pdf`
uploaded directly as a top-level file is rejected as an empty file. -/
theorem zip_entries_no_size_check :
    (∀ (aid : Nat) (st : Store) (entries : List (String × List Nat)),
      ((zipEntriesLoop aid st entries).1.map fun e =>
          (e.file_name, e.original_file, e.status)) =
        ((entries.filter fun p => is_valid_zip_entry p.1).map fun p =>
          (basename p.1, p.2, EssayStatus.pending))) ∧
    (upload_post (fun _ => some [("z.pdf", [])]) { essays := [], nextId := 0 } 3
        [{ name := "e.zip", content := [9] }]).response =
      .ok [{ id := 0, assignment := 3, file_name := "z.pdf"
             original_file := [], extracted_text := ""
             status := .pending }] ∧
    (upload_post (fun _ => some [("z.pdf", [])]) { essays := [], nextId := 0 } 3
        [{ name := "z.pdf", content := [] }]).response = .error .emptyFile :=
  ⟨fun aid st entries => zipEntriesLoop_spec aid entries st, rfl, rfl⟩

/-- C6 — ZIP container error discrimination: when the upload loop
reaches an item whose lowercased extension is `.zip`, an unparseable
byte stream rejects the whole request with the corrupt-ZIP error, a
parsed container with zero eligible entries rejects it with the
distinct no-valid-files error, and otherwise the loop continues having
created exactly one essay per eligible entry; the two rejections are
distinguishable to the caller. -/
theorem zip_container_error_discrimination
    (parseZip : List Nat → Option (List (String × List Nat))) (aid : Nat)
    (st : Store) (created : List Essay) (f : UploadedFile)
    (rest : List UploadedFile)
    (hz : lowerStr (extOf f.name) = ".zip") :
    (parseZip f.content = none →
      uploadLoop parseZip aid st created (f :: rest) =
        { response := .error .corruptZip, store := st, dispatched := none }) ∧
    (∀ entries, parseZip f.content = some entries →
      (entries.filter fun p => is_valid_zip_entry p.1) = [] →
      uploadLoop parseZip aid st created (f :: rest) =
        { response := .error .zipNoValidFiles, store := st
          dispatched := none }) ∧
    (∀ entries, parseZip f.content = some entries →
      (entries.filter fun p => is_valid_zip_entry p.1) ≠ [] →
      uploadLoop parseZip aid st created (f :: rest) =
        uploadLoop parseZip aid (zipEntriesLoop aid st entries).2
          (created ++ (zipEntriesLoop aid st entries).1) rest ∧
      (zipEntriesLoop aid st entries).1.length =
        (entries.filter fun p => is_valid_zip_entry p.1).length) ∧
    UploadError.corruptZip ≠ UploadError.zipNoValidFiles := by
  refine ⟨?_, ?_, ?_, by simp⟩
  · intro hp
    simp [uploadLoop, handle_zip, hz, hp]
  · intro entries hp hfil
    have hloop := zipEntriesLoop_nil_of_filter_nil aid entries st hfil
    simp [uploadLoop, handle_zip, hz, hp, hloop]
  · intro entries hp hfil
    have hlen := zipEntriesLoop_length aid st entries
    have hne : (zipEntriesLoop aid st entries).1 ≠ [] := by
      intro hnil
      rw [hnil] at hlen
      exact hfil (List.eq_nil_of_length_eq_zero hlen.symm)
    have hemp : (zipEntriesLoop aid st entries).1.isEmpty = false := by
      cases hE : (zipEntriesLoop aid st entries).1 with
      | nil => exact absurd hE hne
      | cons a l => rfl
    exact ⟨by simp [uploadLoop, handle_zip, hz, hp, hemp], hlen⟩

/-- Witness for C6: a corrupt container rejects the request, and a
parsed container with only a `.jpg` entry rejects it with the other
error. -/
theorem zip_container_error_discrimination_witness :
    (uploadLoop (fun _ => none) 0 { essays := [], nextId := 0 } []
        [{ name := "x.zip", content := [0] }]) =
      { response := .error .corruptZip, store := { essays := [], nextId := 0 }
        dispatched := none } ∧
    (uploadLoop (fun _ => some [("p.jpg", [1])]) 0 { essays := [], nextId := 0 } []
        [{ name := "x.zip", content := [0] }]) =
      { response := .error .zipNoValidFiles, store := { essays := [], nextId := 0 }
        dispatched := none } :=
  ⟨(zip_container_error_discrimination (fun _ => none) 0
      { essays := [], nextId := 0 } [] { name := "x.zip", content := [0] } []
      (by decide)).1 rfl,
    (zip_container_error_discrimination (fun _ => some [("p.jpg", [1])]) 0
      { essays := [], nextId := 0 } [] { name := "x.zip", content := [0] } []
      (by decide)).2.1 [("p.jpg", [1])] rfl (by decide)⟩

/-- C7 — Direct-file classification: at a top-level item the extension
is compared lowercased; an extension outside the allow-list (and not
`.zip`) rejects the whole request with the unsupported-type error
naming that extension, with nothing dispatched; an allowed non-zip item
of size zero rejects with the empty-file error; otherwise exactly one
essay is created with `file_name` the original filename, the blob as
content, and status PENDING. -/
theorem direct_file_classification
    (parseZip : List Nat → Option (List (String × List Nat))) (aid : Nat)
    (st : Store) (created : List Essay) (f : UploadedFile)
    (rest : List UploadedFile)
    (hz : lowerStr (extOf f.name) ≠ ".zip") :
    (lowerStr (extOf f.name) ∉ ALLOWED_EXTENSIONS →
      uploadLoop parseZip aid st created (f :: rest) =
        { response := .error (.unsupportedType (lowerStr (extOf f.name)))
          store := st, dispatched := none }) ∧
    (lowerStr (extOf f.name) ∈ ALLOWED_EXTENSIONS → f.content.length = 0 →
      uploadLoop parseZip aid st created (f :: rest) =
        { response := .error .emptyFile, store := st, dispatched := none }) ∧
    (lowerStr (extOf f.name) ∈ ALLOWED_EXTENSIONS → f.content.length ≠ 0 →
      uploadLoop parseZip aid st created (f :: rest) =
        uploadLoop parseZip aid (st.createEssay aid f.name f.content).2
          (created ++ [(st.createEssay aid f.name f.content).1]) rest ∧
      (st.createEssay aid f.name f.content).1 =
        { id := st.nextId, assignment := aid, file_name := f.name
          original_file := f.content, extracted_text := ""
          status := .pending }) := by
  refine ⟨?_, ?_, ?_⟩
  · intro ha
    simp [uploadLoop, hz, ha]
  · intro ha hlen
    have hnil : f.content = [] := List.eq_nil_of_length_eq_zero hlen
    simp [uploadLoop, hz, ha, hnil]
  · intro ha hlen
    have hnil : f.content ≠ [] := by
      intro hE
      exact hlen (by rw [hE]; rfl)
    exact ⟨by simp [uploadLoop, hz, ha, hnil], rfl⟩

/-- Witness for C7: a `.jpg` rejects the request with the extension
named, an empty `.pdf` rejects it as empty, and a non-empty `.pdf`
becomes one PENDING essay. -/
theorem direct_file_classification_witness :
    (uploadLoop (fun _ => none) 7 { essays := [], nextId := 0 } []
        [{ name := "photo.JPG", content := [1] }]) =
      { response := .error (.unsupportedType ".jpg")
        store := { essays := [], nextId := 0 }, dispatched := none } ∧
    (uploadLoop (fun _ => none) 7 { essays := [], nextId := 0 } []
        [{ name := "empty.pdf", content := [] }]) =
      { response := .error .emptyFile, store := { essays := [], nextId := 0 }
        dispatched := none } ∧
    ({ essays := [], nextId := 0 } : Store).createEssay 7 "e.pdf" [1] =
      ({ id := 0, assignment := 7, file_name := "e.pdf", original_file := [1]
         extracted_text := "", status := .pending },
        { essays := [{ id := 0, assignment := 7, file_name := "e.pdf"
                       original_file := [1], extracted_text := ""
                       status := .pending }], nextId := 1 }) :=
  ⟨(direct_file_classification (fun _ => none) 7 { essays := [], nextId := 0 } []
      { name := "photo.JPG", content := [1] } [] (by decide)).1 (by decide),
    (direct_file_classification (fun _ => none) 7 { essays := [], nextId := 0 } []
      { name := "empty.pdf", content := [] } [] (by decide)).2.1 (by decide) rfl,
    by
      have h := (direct_file_classification (fun _ => none) 7
        { essays := [], nextId := 0 } [] { name := "e.pdf", content := [1] } []
        (by decide)).2.2 (by decide) (by decide)
      exact Prod.ext h.2 rfl⟩

/-- C8 — Single-batch dispatch: a request with no items is rejected
with the no-files error and nothing is enqueued; a fully accepted
request enqueues exactly one job carrying the ordered ids of all
created essays and answers 201 with those essays, all still PENDING. -/
theorem single_batch_dispatch
    (parseZip : List Nat → Option (List (String × List Nat)))
    (st : Store) (aid : Nat) (files : List UploadedFile) :
    (files = [] →
      upload_post parseZip st aid files =
        { response := .error .noFiles, store := st, dispatched := none }) ∧
    ∀ essays, (upload_post parseZip st aid files).response = .ok essays →
      (upload_post parseZip st aid files).dispatched =
          some (essays.map (·.id)) ∧
        ∀ e ∈ essays, e.status = EssayStatus.pending := by
  constructor
  · intro h
    subst h
    rfl
  · intro essays h
    cases files with
    | nil =>
      rw [show upload_post parseZip st aid [] =
          { response := .error .noFiles, store := st, dispatched := none }
        from rfl] at h
      simp at h
    | cons f rest =>
      rw [show upload_post parseZip st aid (f :: rest) =
          uploadLoop parseZip aid st [] (f :: rest) from rfl] at h ⊢
      exact uploadLoop_ok parseZip aid (f :: rest) st []
        (by intro e he; simp at he) essays h

/-- Witness for C8: the empty request, and a two-file request whose
single dispatched batch carries both created ids in order. -/
theorem single_batch_dispatch_witness :
    upload_post (fun _ => none) { essays := [], nextId := 0 } 7 [] =
      { response := .error .noFiles, store := { essays := [], nextId := 0 }
        dispatched := none } ∧
    (upload_post (fun _ => none) { essays := [], nextId := 0 } 7
        [{ name := "a.pdf", content := [1] },
          { name := "b.txt", content := [2] }]).dispatched = some [0, 1] :=
  ⟨(single_batch_dispatch (fun _ => none) { essays := [], nextId := 0 } 7 []).1
      rfl,
    by
      have h := (single_batch_dispatch (fun _ => none)
        { essays := [], nextId := 0 } 7
        [{ name := "a.pdf", content := [1] },
          { name := "b.txt", content := [2] }]).2
        [{ id := 0, assignment := 7, file_name := "a.pdf", original_file := [1]
           extracted_text := "", status := .pending },
          { id := 1, assignment := 7, file_name := "b.txt", original_file := [2]
            extracted_text := "", status := .pending }] rfl
      exact h.1⟩

/-- C1 (counterexample) — upload atomicity fails on the code: a request
of a good `a.pdf` followed by a bad `b.jpg` is rejected, yet the essay
row created for `a.pdf` persists in the store (one row where the claim
demands zero beyond the pre-existing ones); nothing is dispatched. -/
theorem upload_atomicity_counterexample :
    (upload_post (fun _ => none) { essays := [], nextId := 0 } 7
        [{ name := "a.pdf", content := [37] },
          { name := "b.jpg", content := [1] }]).response =
      .error (.unsupportedType ".jpg") ∧
    (upload_post (fun _ => none) { essays := [], nextId := 0 } 7
        [{ name := "a.pdf", content := [37] },
          { name := "b.jpg", content := [1] }]).store.essays.length = 1 ∧
    (upload_post (fun _ => none) { essays := [], nextId := 0 } 7
        [{ name := "a.pdf", content := [37] },
          { name := "b.jpg", content := [1] }]).dispatched = none :=
  ⟨rfl, rfl, rfl⟩

/-- C1 (amended) — every rejected upload request returns without
dispatching any extraction batch, and the store after the call is the
store before it plus the rows created from items processed earlier in
the same request before the rejection (partial essay creation is
possible; full atomicity does not hold). -/
theorem upload_rejection_aborts_dispatch
    (parseZip : List Nat → Option (List (String × List Nat)))
    (st : Store) (aid : Nat) (files : List UploadedFile) (err : UploadError)
    (h : (upload_post parseZip st aid files).response = .error err) :
    (upload_post parseZip st aid files).dispatched = none ∧
    ∃ newRows, (upload_post parseZip st aid files).store.essays =
      st.essays ++ newRows := by
  cases files with
  | nil => exact ⟨rfl, ⟨[], by simp [upload_post]⟩⟩
  | cons f rest =>
    rw [show upload_post parseZip st aid (f :: rest) =
        uploadLoop parseZip aid st [] (f :: rest) from rfl] at h ⊢
    exact uploadLoop_error parseZip aid (f :: rest) st [] err h

/-- Witness for C1 (amended) at the counterexample input: the rejection
dispatches nothing and the surviving store extends the initial one. -/
theorem upload_rejection_aborts_dispatch_witness :
    (upload_post (fun _ => none) { essays := [], nextId := 0 } 7
        [{ name := "a.pdf", content := [37] },
          { name := "b.jpg", content := [1] }]).dispatched = none ∧
    ∃ newRows, (upload_post (fun _ => none) { essays := [], nextId := 0 } 7
        [{ name := "a.pdf", content := [37] },
          { name := "b.jpg", content := [1] }]).store.essays =
      [] ++ newRows :=
  upload_rejection_aborts_dispatch (fun _ => none)
    { essays := [], nextId := 0 } 7
    [{ name := "a.pdf", content := [37] }, { name := "b.jpg", content := [1] }]
    (.unsupportedType ".jpg") rfl

end Instagrader
